import Mathlib

/-!
Shallow embedding of the fxlog console logger (`src/index.ts`) and proofs
about its configuration merge, message formatting, timer bookkeeping and
facade state machine.

Conventions of the embedding:
* JavaScript objects with a fixed key set become Lean structures.  A field
  of a user-supplied partial configuration is `Option (Option τ)`: the
  outer layer records whether the key is present in the object (spread
  semantics copy present keys, including ones whose value is `undefined`),
  the inner layer is the JS value (`none` = `undefined`).
* `Record<string, T>` objects with dynamic keys (the `types` map) become
  insertion-ordered association lists, and object spread becomes
  `objAssign` below.
* `Date.now()` / `new Date()` are inputs: every operation that reads the
  clock takes the current timestamp (`Nat`, ms since epoch) or the broken
  down local-time `DateParts` as an argument.
* `chalk` styling wraps a string in SGR escape sequences when the color
  name is known and the string is nonempty (chalk returns an empty string
  unchanged); an unknown color name applies no styling.
* Thrown JS exceptions become `Except String`.
-/

namespace Fxlog

/-- One log kind: `LogTypeConfig` from `src/types.ts` (`badge: string | null`,
`color: ... | null`, `label: string`, `logLevel?`). -/
structure LogTypeConfig where
  badge : Option String
  color : Option String
  label : String
  logLevel : Option String
deriving Repr, DecidableEq

/-- `scope: string | string[]`. -/
inductive ScopeVal where
  | str (s : String)
  | arr (l : List String)
deriving Repr, DecidableEq

/-- `prefix: string | string[]` (a function-valued static prefix evaluates,
per call, to one of these two shapes; no claim involves one). -/
inductive PrefixVal where
  | single (s : String)
  | multi (l : List String)
deriving Repr, DecidableEq

/-- A user-supplied partial `LoggerConfig` (`src/types.ts`).  Outer `Option`:
key present in the object; inner `Option`: the value may be `undefined`. -/
structure LoggerConfig where
  scope : Option (Option ScopeVal) := none
  prefixVal : Option (Option PrefixVal) := none
  presets : Option (Option (List String)) := none
  colorScope : Option (Option String) := none
  suffix : Option (Option (List String)) := none
  underline : Option (Option (List String)) := none
  uppercase : Option (Option (List String)) := none
  types : Option (Option (List (String × LogTypeConfig))) := none
  disabled : Option (Option Bool) := none
  secrets : Option (Option (List String)) := none
  logLevel : Option (Option String) := none
deriving Repr, DecidableEq

/-- The effective configuration produced by the merge in `createLogger`.
Fields the default configuration does not define stay `Option`-valued. -/
structure EffConfig where
  scope : Option ScopeVal
  prefixVal : Option PrefixVal
  presets : Option (List String)
  colorScope : Option String
  suffix : Option (List String)
  underline : Option (List String)
  uppercase : Option (List String)
  types : List (String × LogTypeConfig)
  disabled : Option Bool
  secrets : Option (List String)
  logLevel : Option String
deriving Repr, DecidableEq

/-- The `types` entry of `defaultConfig` in `src/index.ts`, in object
insertion order, with the `figures.mainSymbols` glyphs. -/
def defaultTypes : List (String × LogTypeConfig) :=
  [("log", ⟨none, none, "log", none⟩),
   ("success", ⟨some "✔", some "green", "success", none⟩),
   ("info", ⟨some "ℹ", some "blue", "info", none⟩),
   ("warn", ⟨some "⚠", some "yellowBright", "warn", none⟩),
   ("error", ⟨some "✘", some "red", "error", none⟩)]

/-- Override one entry of `a` with the value `b` holds for its key, if any. -/
def updateEntry {α : Type} (b : List (String × α)) (p : String × α) : String × α :=
  match b.lookup p.1 with
  | some v => (p.1, v)
  | none => p

/-- JS object spread `{...a, ...b}` on insertion-ordered association lists:
keys of `a` keep their position (values overridden by `b` where present),
keys of `b` not in `a` are appended in `b`'s order. -/
def objAssign (a b : List (String × LogTypeConfig)) : List (String × LogTypeConfig) :=
  a.map (updateEntry b) ++ b.filter (fun p => (a.lookup p.1).isNone)

/-- The user's `types` object as read by the merge (`...userConfig.types`
spreads nothing when the key is absent or `undefined`). -/
def userTypesOf (u : LoggerConfig) : List (String × LogTypeConfig) :=
  (u.types.getD none).getD []

/-- The configuration merge at the top of `createLogger`:
`{...defaultConfig, ...userConfig, types: {...defaultConfig.types, ...userConfig.types}}`.
Reading a key of the merged object yields the user's value when the key is
present in the user object and the default (or `undefined`) otherwise. -/
def mergeConfig (u : LoggerConfig) : EffConfig where
  scope := u.scope.getD (some (.str "fxlog"))
  prefixVal := u.prefixVal.getD none
  presets := u.presets.getD (some ["filename", "date", "datetime"])
  colorScope := u.colorScope.getD (some "all")
  suffix := u.suffix.getD none
  underline := u.underline.getD (some ["scope", "label", "message", "prefix", "suffix"])
  uppercase := u.uppercase.getD (some ["label"])
  types := objAssign defaultTypes (userTypesOf u)
  disabled := u.disabled.getD none
  secrets := u.secrets.getD none
  logLevel := u.logLevel.getD none

/-- `Object.values(config.types).reduce((longest, type) => ...)`:
the longest label across all configured types. -/
def longestLabel (types : List (String × LogTypeConfig)) : String :=
  types.foldl (fun longest p => if p.2.label.length > longest.length then p.2.label else longest) ""

/-- `shouldApplyStyle`: membership of the element in `config.underline || []`. -/
def shouldApplyStyle (element : String) (c : EffConfig) : Bool :=
  (c.underline.getD []).contains element

/-- `shouldUppercase`: membership of the element in `config.uppercase || []`. -/
def shouldUppercase (element : String) (c : EffConfig) : Bool :=
  (c.uppercase.getD []).contains element

/-- `String.prototype.toUpperCase()` (ASCII range, which covers every label
and scope this code constructs), written by structural recursion so the
kernel can evaluate it. -/
def jsToUpper (s : String) : String :=
  String.mk (s.data.map Char.toUpper)

/-- `String.prototype.startsWith(pre)`, written on the character lists so
the kernel can evaluate it. -/
def strStartsWith (s pre : String) : Bool :=
  pre.data.isPrefixOf s.data

/-- An SGR escape sequence. -/
def esc (code : String) : String := "\u001b[" ++ code ++ "m"

/-- `chalk.underline`; chalk returns an empty string unchanged. -/
def chalkUnderline (s : String) : String :=
  if s = "" then "" else esc "4" ++ s ++ esc "24"

/-- The chalk color names this codebase reaches (`chalk[name]` truthiness:
known names style, unknown names leave the string alone). -/
def colorCode (name : String) : Option String :=
  [("green", "32"), ("blue", "34"), ("red", "31"),
   ("yellowBright", "93"), ("yellow", "33"), ("magenta", "35")].lookup name

/-- `chalk[name](s)` guarded by `chalk[name]` truthiness. -/
def chalkColor (name : String) (s : String) : String :=
  match colorCode name with
  | some c => if s = "" then "" else esc c ++ s ++ esc "39"
  | none => s

/-- The fields `new Date()` exposes that the code reads; `month0` is the
zero-based `getMonth()`. -/
structure DateParts where
  year : Nat
  month0 : Nat
  day : Nat
  hours : Nat
  minutes : Nat
  seconds : Nat
  millis : Nat
deriving Repr, DecidableEq

/-- `Array.prototype.join(sep)`. -/
def joinSep (sep : String) : List String → String
  | [] => ""
  | [x] => x
  | x :: y :: xs => x ++ sep ++ joinSep sep (y :: xs)

/-- `String.prototype.padStart(n, c)`. -/
def padStartStr (s : String) (n : Nat) (c : Char) : String :=
  String.mk (List.replicate (n - s.length) c) ++ s

/-- `String.prototype.padEnd(n, c)`. -/
def padEndStr (s : String) (n : Nat) (c : Char) : String :=
  s ++ String.mk (List.replicate (n - s.length) c)

/-- `formatDate`: `[year, month+1, day].join('-')` — note: no zero padding. -/
def formatDate (d : DateParts) : String :=
  joinSep "-" [toString d.year, toString (d.month0 + 1), toString d.day]

/-- `formatDateTime`: date, space, `hh:mm:ss` with 2-digit padding — note:
no milliseconds. -/
def formatDateTime (d : DateParts) : String :=
  formatDate d ++ " " ++
    joinSep ":" ([d.hours, d.minutes, d.seconds].map (fun n => padStartStr (toString n) 2 '0'))

/-- Per-call environment: the wall clock read by `new Date()` and the value
`getFilename()` extracts from the stack trace. -/
structure Env where
  date : DateParts
  filename : String
deriving Repr, DecidableEq

/-- The static user prefix fragment(s) pushed first by `buildPrefix`
(`if (userPrefix?.length)`). -/
def userPrefixParts (c : EffConfig) : List String :=
  match c.prefixVal with
  | none => []
  | some (.single s) => if s.length = 0 then [] else [s]
  | some (.multi l) => if l.length = 0 then [] else l

/-- One iteration of the `config.presets?.forEach` switch. -/
def presetFragment (env : Env) (c : EffConfig) (item : String) : List String :=
  let value :=
    if item = "date" then "[" ++ formatDate env.date ++ "]"
    else if item = "datetime" then "[" ++ formatDateTime env.date ++ "]"
    else if item = "filename" then "[" ++ env.filename ++ "]"
    else ""
  if value = "" then []
  else if shouldApplyStyle "prefix" c then [chalkUnderline value] else [value]

/-- All preset fragments, in declared order. -/
def presetParts (env : Env) (c : EffConfig) : List String :=
  ((c.presets.getD []).map (presetFragment env c)).flatten

/-- One bracketed scope token, uppercased when configured. -/
def scopeFragmentStr (c : EffConfig) (s : String) : String :=
  "[" ++ (if shouldUppercase "scope" c then jsToUpper s else s) ++ "]"

/-- The scope fragment of `buildPrefix` (`if (currentScope) { ... }`; an
empty scope string is falsy, an array — even empty — is truthy). -/
def scopeParts (c : EffConfig) (currentScope : Option ScopeVal) : List String :=
  match currentScope with
  | none => []
  | some (.str s) =>
    if s = "" then []
    else
      let scopeStr := joinSep " " ([s].map (scopeFragmentStr c))
      [if shouldApplyStyle "scope" c then chalkUnderline scopeStr else scopeStr]
  | some (.arr l) =>
      let scopeStr := joinSep " " (l.map (scopeFragmentStr c))
      [if shouldApplyStyle "scope" c then chalkUnderline scopeStr else scopeStr]

/-- `buildPrefix`: static user prefix, then preset fragments, then scope. -/
def buildPrefixParts (c : EffConfig) (currentScope : Option ScopeVal) (env : Env) : List String :=
  userPrefixParts c ++ presetParts env c ++ scopeParts c currentScope

/-- The label after optional uppercasing. -/
def labelOf (c : EffConfig) (tc : LogTypeConfig) : String :=
  if shouldUppercase "label" c then jsToUpper tc.label else tc.label

/-- `typeConfig.badge ? badge + ' ' + label : label` (an empty badge string
is falsy). -/
def badgeAndLabel (c : EffConfig) (tc : LogTypeConfig) : String :=
  match tc.badge with
  | some b => if b = "" then labelOf c tc else b ++ " " ++ labelOf c tc
  | none => labelOf c tc

/-- `badgeAndlabel.padEnd(longestLabel.length + 2)`. -/
def paddedLabel (c : EffConfig) (tc : LogTypeConfig) : String :=
  padEndStr (badgeAndLabel c tc) ((longestLabel c.types).length + 2) ' '

/-- The label column after underline styling and per-type coloring. -/
def renderedLabel (c : EffConfig) (tc : LogTypeConfig) : String :=
  let styled :=
    if shouldApplyStyle "label" c then chalkUnderline (paddedLabel c tc)
    else paddedLabel c tc
  match tc.color with
  | some col => if col = "" then styled else chalkColor col styled
  | none => styled

/-- `buildMessage`: throws on a type name absent from the merged type map,
otherwise returns the space-joined line and the type's log level.  Variadic
arguments are modelled as the list of their stringifications (string
arguments pass through unchanged; others go through `util.inspect`). -/
def buildMessage (c : EffConfig) (currentScope : Option ScopeVal) (env : Env)
    (ty : String) (args : List String) : Except String (String × String) :=
  match c.types.lookup ty with
  | none => .error ("Unknown log type: " ++ ty)
  | some tc =>
    let prefixParts := buildPrefixParts c currentScope env
    let base : List String := if prefixParts.length > 0 then [joinSep " " prefixParts] else []
    let messageContent := joinSep " " args
    let styledMessage :=
      if shouldApplyStyle "message" c then chalkUnderline messageContent else messageContent
    .ok (joinSep " " (base ++ [renderedLabel c tc] ++ [styledMessage]), (tc.logLevel).getD "info")

/-- `{label, span}` returned by `timeEnd`; `span` is `Date.now() - start`. -/
structure TimerResult where
  label : String
  span : Int
deriving Repr, DecidableEq

/-- The mutable state `createLogger` closes over. -/
structure LoggerState where
  config : EffConfig
  currentScope : Option ScopeVal
  isDisabled : Bool
  timers : List (String × Nat)
deriving Repr, DecidableEq

/-- `createLogger` body: merge, then capture `currentScope = config.scope`,
`isDisabled = config.disabled || false`, `timers = new Map()`. -/
def createLoggerState (u : LoggerConfig) : LoggerState :=
  let c := mergeConfig u
  ⟨c, c.scope, c.disabled.getD false, []⟩

/-- `Map.prototype.has`. -/
def mapHas (m : List (String × Nat)) (k : String) : Bool :=
  (m.lookup k).isSome

/-- `Map.prototype.set`: update in place when the key exists, else append. -/
def mapSet (m : List (String × Nat)) (k : String) (v : Nat) : List (String × Nat) :=
  if mapHas m k then m.map (fun p => if p.1 = k then (k, v) else p) else m ++ [(k, v)]

/-- `Map.prototype.delete`. -/
def mapDelete (m : List (String × Nat)) (k : String) : List (String × Nat) :=
  m.filter (fun p => p.1 ≠ k)

/-- A log-level method built by `createLogFn`: returns the console lines it
writes and the (unchanged) state.  A thrown `buildMessage` error propagates
to the caller before any console write, so it yields no output and leaves
the state untouched. -/
def logFn (s : LoggerState) (env : Env) (ty : String) (args : List String) :
    List String × LoggerState :=
  if s.isDisabled then ([], s)
  else match buildMessage s.config s.currentScope env ty args with
    | .ok (m, _) => ([m], s)
    | .error _ => ([], s)

/-- `time(label?)` at clock value `now`: returns the resolved label, the
console lines written, and the new state. -/
def timeFn (s : LoggerState) (env : Env) (now : Nat) (label : Option String) :
    String × List String × LoggerState :=
  if s.isDisabled then ("", [], s)
  else
    let timerLabel :=
      match label with
      | some l => if l = "" then "timer_" ++ toString s.timers.length else l
      | none => "timer_" ++ toString s.timers.length
    let timers2 := mapSet s.timers timerLabel now
    let line := joinSep " " (buildPrefixParts s.config s.currentScope env ++
      ["[TIMER]", chalkColor "green" "▶", chalkColor "green" timerLabel, "Initialized timer..."])
    (timerLabel, [line], { s with timers := timers2 })

/-- The duration text of the `timeEnd` line: `<span>ms` below one second,
else seconds with two decimals (`toFixed(2)`, modelled by exact
round-half-up centisecond arithmetic). -/
def formatSpan (span : Int) : String :=
  if span < 1000 then toString span ++ "ms"
  else
    let centi := (span * 100 + 500) / 1000
    toString (centi / 100) ++ "." ++ padStartStr (toString (centi % 100)) 2 '0' ++ "s"

/-- Label resolution in `timeEnd` when the given label is absent or falsy:
`timerKeys.find(k => k.startsWith('timer_')) || timerKeys[timerKeys.length - 1]`. -/
def resolveTimerLabel (timers : List (String × Nat)) : Option String :=
  if timers.length > 0 then
    match timers.find? (fun p => strStartsWith p.1 "timer_") with
    | some p => some p.1
    | none => (timers.getLast?).map (fun p => p.1)
  else none

/-- `timeEnd(label?)` at clock value `now`: returns the optional
`TimerResult`, the console lines written, and the new state. -/
def timeEndFn (s : LoggerState) (env : Env) (now : Nat) (label : Option String) :
    Option TimerResult × List String × LoggerState :=
  if s.isDisabled then (none, [], s)
  else
    let given : Option String :=
      match label with
      | some l => if l = "" then none else some l
      | none => none
    let timerLabel : Option String :=
      match given with
      | some l => some l
      | none => resolveTimerLabel s.timers
    match timerLabel with
    | none => (none, [], s)
    | some l =>
      if l = "" then (none, [], s)
      else if ¬ mapHas s.timers l then (none, [], s)
      else
        let startTime := (s.timers.lookup l).getD 0
        let span : Int := (now : Int) - (startTime : Int)
        let line := joinSep " " (buildPrefixParts s.config s.currentScope env ++
          ["[TIMER]", chalkColor "red" "■", chalkColor "red" l, "Timer run for:",
           chalkColor "yellow" (formatSpan span)])
        (some ⟨l, span⟩, [line], { s with timers := mapDelete s.timers l })

/-- Re-packaging the effective configuration as the user object `scope` and
`unscope` pass back into `createLogger` (`{...config, ...}`): every field
is present, carrying the current effective value. -/
def toUserConfig (c : EffConfig) : LoggerConfig where
  scope := some c.scope
  prefixVal := some c.prefixVal
  presets := some c.presets
  colorScope := some c.colorScope
  suffix := some c.suffix
  underline := some c.underline
  uppercase := some c.uppercase
  types := some (some c.types)
  disabled := some c.disabled
  secrets := some c.secrets
  logLevel := some c.logLevel

/-- The scope array `scope(...names)` passes on: appended to an array scope,
and otherwise just the given names (a string scope is dropped; for a single
name the code builds `[scopes[0]]`, which equals `scopes`). -/
def nextScopes (cs : Option ScopeVal) (names : List String) : List String :=
  match cs with
  | some (.arr l) => l ++ names
  | _ => names

/-- `scope(...names)`: a fresh logger via `createLogger({...config, scope:
newScopes, disabled: isDisabled})`. -/
def scopeFn (s : LoggerState) (names : List String) : LoggerState :=
  createLoggerState { toUserConfig s.config with
    scope := some (some (.arr (nextScopes s.currentScope names))),
    disabled := some (some s.isDisabled) }

/-- `unscope()`: a fresh logger with `scope: undefined`. -/
def unscopeFn (s : LoggerState) : LoggerState :=
  createLoggerState { toUserConfig s.config with
    scope := some none, disabled := some (some s.isDisabled) }

/-- `disable()`. -/
def disableFn (s : LoggerState) : LoggerState := { s with isDisabled := true }

/-- `enable()`. -/
def enableFn (s : LoggerState) : LoggerState := { s with isDisabled := false }

/-- The possible `createLogger` arguments: absent/`undefined` (the default
parameter applies), `null` (the default parameter does NOT apply, and
`userConfig.types` inside the merge is a member access on `null`), or a
configuration object. -/
inductive JSConfigArg where
  | undef
  | nullArg
  | conf (u : LoggerConfig)
deriving Repr, DecidableEq

/-- `createLogger` as called from the outside: `null` throws a `TypeError`
when the merge reads `userConfig.types`. -/
def createLoggerJS : JSConfigArg → Except String LoggerState
  | .undef => .ok (createLoggerState {})
  | .nullArg => .error "TypeError: Cannot read properties of null (reading types)"
  | .conf u => .ok (createLoggerState u)

/-- One facade call on a single logger instance (the operations that touch
its mutable state or the console). -/
inductive LogOp where
  | logO (ty : String) (args : List String)
  | timeO (now : Nat) (label : Option String)
  | timeEndO (now : Nat) (label : Option String)
  | disableO
  | enableO
deriving Repr, DecidableEq

/-- The state transition and console output of one facade call. -/
def stepO (env : Env) (s : LoggerState) : LogOp → LoggerState × List String
  | .logO ty args => let r := logFn s env ty args; (r.2, r.1)
  | .timeO now l => let r := timeFn s env now l; (r.2.2, r.2.1)
  | .timeEndO now l => let r := timeEndFn s env now l; (r.2.2, r.2.1)
  | .disableO => (disableFn s, [])
  | .enableO => (enableFn s, [])

/-- Run a sequence of facade calls, collecting all console output. -/
def runOps (env : Env) (s : LoggerState) : List LogOp → LoggerState × List String
  | [] => (s, [])
  | op :: rest =>
    let r := stepO env s op
    let r2 := runOps env r.1 rest
    (r2.1, r.2 ++ r2.2)

/-- Modelled from the spec: the label `timeEnd` should resolve when called
with an omitted label — "the most recently-added still-active auto-generated
label if one exists, else the most recently-added active label of any kind"
(auto-generated labels are exactly the `timer_`-prefixed ones the code
creates).  Compared against the code's `resolveTimerLabel` below. -/
def specResolveLabel (timers : List (String × Nat)) : Option String :=
  match (timers.filter (fun p => strStartsWith p.1 "timer_")).getLast? with
  | some p => some p.1
  | none => (timers.getLast?).map (fun p => p.1)

/-! Concrete inputs used by witnesses and counterexamples. -/

/-- A fixed per-call environment: local time 2024-01-15 03:02:01.004. -/
def envC : Env := ⟨⟨2024, 0, 15, 3, 2, 1, 4⟩, "app.ts"⟩

/-- A sample user configuration adding one type and overriding one. -/
def uSample : LoggerConfig :=
  { scope := some (some (.str "app")),
    types := some (some
      [("debug", ⟨some "D", some "magenta", "debug", none⟩),
       ("log", ⟨none, none, "custom-log", none⟩)]) }

/-- A logger created with `disabled: true`. -/
def sDisabled : LoggerState := createLoggerState { disabled := some (some true) }

/-- A sample call sequence containing no `enable()`. -/
def opsSample : List LogOp :=
  [.logO "log" ["hello"], .timeO 1 none, .timeEndO 2 none, .logO "error" ["boom"], .disableO]

/-- Two auto-generated timers started at 0ms and 5ms (both still active). -/
def sTwoTimers : LoggerState :=
  (timeFn ((timeFn (createLoggerState {}) envC 0 none).2.2) envC 5 none).2.2

/-- A logger whose configuration uppercases scope fragments (no presets, no
underlining, to keep the output line small). -/
def sUpper : LoggerState :=
  scopeFn (scopeFn (createLoggerState
    { uppercase := some (some ["scope"]), underline := some (some []),
      presets := some (some []) }) ["a"]) ["b"]

/-! ### Association-list and map lemmas -/

theorem lookup_cons_self {α : Type} (p : String × α) (t : List (String × α)) :
    ((p :: t).lookup p.1) = some p.2 := by
  simp [List.lookup]

theorem lookup_cons_ne {α : Type} (p : String × α) (t : List (String × α)) (k : String)
    (h : k ≠ p.1) : ((p :: t).lookup k) = t.lookup k := by
  have hne : (k == p.1) = false := by simp [h]
  simp [List.lookup, hne]

theorem lookup_map_update {α : Type} (a b : List (String × α)) (k : String) :
    (a.map (updateEntry b)).lookup k =
      match a.lookup k with
      | some w => some ((b.lookup k).getD w)
      | none => none := by
  induction a with
  | nil => simp [List.lookup]
  | cons p t ih =>
    have hfst : (updateEntry b p).1 = p.1 := by
      unfold updateEntry; cases hbp : b.lookup p.1 <;> rfl
    by_cases h : k = p.1
    · subst h
      have hl : List.lookup p.1 (updateEntry b p :: List.map (updateEntry b) t)
          = some (updateEntry b p).2 := by
        have := lookup_cons_self (updateEntry b p) (List.map (updateEntry b) t)
        rwa [hfst] at this
      rw [List.map_cons, hl, lookup_cons_self]
      unfold updateEntry
      cases hbp : b.lookup p.1 <;> simp [hbp]
    · have h' : k ≠ (updateEntry b p).1 := by rw [hfst]; exact h
      rw [List.map_cons, lookup_cons_ne _ _ _ h', lookup_cons_ne _ _ _ h, ih]

theorem lookup_append_right {α : Type} (m n : List (String × α)) (k : String)
    (h : m.lookup k = none) : (m ++ n).lookup k = n.lookup k := by
  induction m with
  | nil => simp
  | cons p t ih =>
    by_cases hk : k = p.1
    · subst hk; rw [lookup_cons_self] at h; cases h
    · rw [List.cons_append, lookup_cons_ne _ _ _ hk]
      rw [lookup_cons_ne _ _ _ hk] at h
      exact ih h

theorem lookup_append_left {α : Type} (m n : List (String × α)) (k : String) (w : α)
    (h : m.lookup k = some w) : (m ++ n).lookup k = some w := by
  induction m with
  | nil => simp [List.lookup] at h
  | cons p t ih =>
    by_cases hk : k = p.1
    · subst hk
      rw [lookup_cons_self] at h
      rw [List.cons_append, lookup_cons_self]
      exact h
    · rw [List.cons_append, lookup_cons_ne _ _ _ hk]
      rw [lookup_cons_ne _ _ _ hk] at h
      exact ih h

theorem lookup_filter_notin {α : Type} (b a : List (String × α)) (k : String)
    (h : a.lookup k = none) :
    (b.filter (fun p => (a.lookup p.1).isNone)).lookup k = b.lookup k := by
  induction b with
  | nil => simp
  | cons q t ih =>
    by_cases hk : k = q.1
    · subst hk
      rw [List.filter_cons, if_pos (by simp [h])]
      rw [lookup_cons_self, lookup_cons_self]
    · rw [lookup_cons_ne _ _ _ hk, ← ih, List.filter_cons]
      by_cases hq : ((a.lookup q.1).isNone : Bool)
      · rw [if_pos (by simpa using hq), lookup_cons_ne _ _ _ hk]
      · rw [if_neg (by simpa using hq)]

/-- Reading a key of `{...a, ...b}`: the user value where present, the
default otherwise. -/
theorem lookup_objAssign (a b : List (String × LogTypeConfig)) (k : String) :
    (objAssign a b).lookup k = ((b.lookup k).orElse (fun _ => a.lookup k)) := by
  unfold objAssign
  cases ha : a.lookup k with
  | some w =>
    have hm : (a.map (updateEntry b)).lookup k = some ((b.lookup k).getD w) := by
      rw [lookup_map_update, ha]
    rw [lookup_append_left _ _ _ _ hm]
    cases hb : b.lookup k <;> simp [Option.orElse, hb, ha]
  | none =>
    have hm : (a.map (updateEntry b)).lookup k = none := by
      rw [lookup_map_update, ha]
    rw [lookup_append_right _ _ _ hm, lookup_filter_notin _ _ _ ha]
    cases hb : b.lookup k <;> simp [Option.orElse, hb, ha]

theorem lookup_map_overwrite (m : List (String × Nat)) (k : String) (v : Nat)
    (h : (m.lookup k).isSome) :
    (m.map (fun p => if p.1 = k then (k, v) else p)).lookup k = some v := by
  induction m with
  | nil => simp [List.lookup] at h
  | cons p t ih =>
    by_cases hk : p.1 = k
    · have hh : (if p.1 = k then (k, v) else p) = (k, v) := if_pos hk
      rw [List.map_cons, hh]
      exact lookup_cons_self (k, v) _
    · have hne : k ≠ p.1 := fun he => hk he.symm
      have hh : (if p.1 = k then (k, v) else p) = p := if_neg hk
      rw [List.map_cons, hh, lookup_cons_ne _ _ _ hne]
      rw [lookup_cons_ne _ _ _ hne] at h
      exact ih h

theorem lookup_mapSet_self (m : List (String × Nat)) (k : String) (v : Nat) :
    (mapSet m k v).lookup k = some v := by
  unfold mapSet
  by_cases h : mapHas m k
  · rw [if_pos h]
    exact lookup_map_overwrite m k v h
  · rw [if_neg h]
    unfold mapHas at h
    have hnone : m.lookup k = none := by
      cases hm : m.lookup k with
      | none => rfl
      | some w => rw [hm] at h; simp at h
    rw [lookup_append_right _ _ _ hnone]
    exact lookup_cons_self (k, v) []

theorem lookup_mapDelete_self (m : List (String × Nat)) (k : String) :
    (mapDelete m k).lookup k = none := by
  unfold mapDelete
  induction m with
  | nil => rfl
  | cons p t ih =>
    rw [List.filter_cons]
    by_cases hk : p.1 = k
    · rw [if_neg (by simp [hk])]
      exact ih
    · rw [if_pos (by simp [hk]), lookup_cons_ne _ _ _ (fun he => hk he.symm)]
      exact ih

theorem lookup_isSome_of_mem (m : List (String × Nat)) (p : String × Nat)
    (h : p ∈ m) : (m.lookup p.1).isSome := by
  induction m with
  | nil => simp at h
  | cons q t ih =>
    rcases List.mem_cons.mp h with h | h
    · subst h; rw [lookup_cons_self]; rfl
    · by_cases hk : p.1 = q.1
      · rw [hk, lookup_cons_self]; rfl
      · rw [lookup_cons_ne _ _ _ hk]
        exact ih h

theorem mem_of_lookup_eq_some {α : Type} (m : List (String × α)) (k : String) (v : α)
    (h : m.lookup k = some v) : (k, v) ∈ m := by
  induction m with
  | nil => cases h
  | cons p t ih =>
    by_cases hk : k = p.1
    · subst hk
      rw [lookup_cons_self] at h
      injection h with hv
      have hp : (p.1, v) = p := by rw [← hv]
      rw [hp]
      exact List.mem_cons_self p t
    · rw [lookup_cons_ne _ _ _ hk] at h
      exact List.mem_cons_of_mem _ (ih h)

/-! ### String and join lemmas -/

theorem length_padEndStr (s : String) (n : Nat) (c : Char) :
    (padEndStr s n c).length = max s.length n := by
  unfold padEndStr
  rw [String.length_append]
  have hmk : (String.mk (List.replicate (n - s.length) c)).length = n - s.length := by
    show (List.replicate (n - s.length) c).length = n - s.length
    exact List.length_replicate _ _
  rw [hmk]
  omega

/-- `t` occurs in `s` (as a contiguous substring). -/
def containsStr (s t : String) : Prop :=
  ∃ x y, s = x ++ t ++ y

theorem containsStr_self (t : String) : containsStr t t :=
  ⟨"", "", by simp⟩

theorem containsStr_append_left (s t u : String) (h : containsStr s t) :
    containsStr (u ++ s) t := by
  obtain ⟨x, y, hxy⟩ := h
  exact ⟨u ++ x, y, by rw [hxy]; simp [String.append_assoc]⟩

theorem containsStr_append_right (s t u : String) (h : containsStr s t) :
    containsStr (s ++ u) t := by
  obtain ⟨x, y, hxy⟩ := h
  exact ⟨x, y ++ u, by rw [hxy]; simp [String.append_assoc]⟩

/-- `[...list, u].join(sep)` ends with `u`. -/
theorem joinSep_append_last (sep : String) (l : List String) (u : String) :
    ∃ x, joinSep sep (l ++ [u]) = x ++ u := by
  induction l with
  | nil => exact ⟨"", by simp [joinSep]⟩
  | cons h t ih =>
    obtain ⟨x, hx⟩ := ih
    cases t with
    | nil => exact ⟨h ++ sep, by simp [joinSep]⟩
    | cons h2 t2 =>
      refine ⟨h ++ sep ++ x, ?_⟩
      have : joinSep sep (h :: (h2 :: t2) ++ [u]) =
          h ++ sep ++ joinSep sep ((h2 :: t2) ++ [u]) := by
        simp [joinSep]
      rw [this, hx]; simp [String.append_assoc]

/-- `[...list, u, v].join(sep)` ends with `u ++ sep ++ v`. -/
theorem joinSep_append_last_two (sep : String) (l : List String) (u v : String) :
    ∃ x, joinSep sep (l ++ [u, v]) = x ++ (u ++ sep ++ v) := by
  induction l with
  | nil => exact ⟨"", by simp [joinSep]⟩
  | cons h t ih =>
    obtain ⟨x, hx⟩ := ih
    cases t with
    | nil =>
      refine ⟨h ++ sep, ?_⟩
      simp [joinSep, String.append_assoc]
    | cons h2 t2 =>
      refine ⟨h ++ sep ++ x, ?_⟩
      have hs : joinSep sep (h :: (h2 :: t2) ++ [u, v]) =
          h ++ sep ++ joinSep sep ((h2 :: t2) ++ [u, v]) := by
        simp [joinSep]
      rw [hs, hx]; simp [String.append_assoc]

/-! ### Claim C2: configuration merge -/

/-- C2: the effective configuration takes each top-level field from the user
partial when the key is present and from the default otherwise, except
`types`, which is merged key-by-key: user entries override or add, default
entries whose key the user does not mention survive, and the merged mapping
contains the five default kinds. -/
theorem claim_C2_config_merge (u : LoggerConfig) :
    (mergeConfig u).scope = u.scope.getD (some (.str "fxlog")) ∧
    (mergeConfig u).prefixVal = u.prefixVal.getD none ∧
    (mergeConfig u).presets = u.presets.getD (some ["filename", "date", "datetime"]) ∧
    (mergeConfig u).colorScope = u.colorScope.getD (some "all") ∧
    (mergeConfig u).suffix = u.suffix.getD none ∧
    (mergeConfig u).underline =
      u.underline.getD (some ["scope", "label", "message", "prefix", "suffix"]) ∧
    (mergeConfig u).uppercase = u.uppercase.getD (some ["label"]) ∧
    (mergeConfig u).disabled = u.disabled.getD none ∧
    (mergeConfig u).secrets = u.secrets.getD none ∧
    (mergeConfig u).logLevel = u.logLevel.getD none ∧
    (∀ k, ((mergeConfig u).types).lookup k =
      ((userTypesOf u).lookup k).orElse (fun _ => defaultTypes.lookup k)) ∧
    (∀ k, (userTypesOf u).lookup k = none →
      ((mergeConfig u).types).lookup k = defaultTypes.lookup k) ∧
    (∀ k, k ∈ (["log", "info", "success", "warn", "error"] : List String) →
      (((mergeConfig u).types).lookup k).isSome) := by
  refine ⟨rfl, rfl, rfl, rfl, rfl, rfl, rfl, rfl, rfl, rfl, ?_, ?_, ?_⟩
  · intro k
    exact lookup_objAssign defaultTypes (userTypesOf u) k
  · intro k h
    rw [show ((mergeConfig u).types) = objAssign defaultTypes (userTypesOf u) from rfl,
      lookup_objAssign, h]
    rfl
  · intro k hk
    rw [show ((mergeConfig u).types) = objAssign defaultTypes (userTypesOf u) from rfl,
      lookup_objAssign]
    cases hu : (userTypesOf u).lookup k with
    | some tc => rfl
    | none =>
      have hd : (defaultTypes.lookup k).isSome := by
        fin_cases hk <;> decide
      cases hdl : defaultTypes.lookup k with
      | none => rw [hdl] at hd; cases hd
      | some tc => simp [Option.orElse, hdl]

/-- Witness for C2 at the sample configuration: the unmentioned default kind
`info` survives, the user-overridden `log` and user-added `debug` are
present. -/
theorem claim_C2_config_merge_witness :
    (userTypesOf uSample).lookup "info" = none ∧
    ((mergeConfig uSample).types).lookup "info" = defaultTypes.lookup "info" ∧
    ("log" ∈ (["log", "info", "success", "warn", "error"] : List String)) ∧
    (((mergeConfig uSample).types).lookup "log").isSome :=
  ⟨by decide,
   (claim_C2_config_merge uSample).2.2.2.2.2.2.2.2.2.2.2.1 "info" (by decide),
   by decide,
   (claim_C2_config_merge uSample).2.2.2.2.2.2.2.2.2.2.2.2 "log" (by decide)⟩

/-! ### Claim C3: null configuration -/

/-- C3 (code bug): `createLogger()` with the argument absent/`undefined` or
an empty object succeeds and equals the default-configured logger, but
`createLogger(null)` throws a `TypeError` — the default parameter only
replaces `undefined`, and the merge then reads `userConfig.types` from
`null` (the repository's own test `tests/edge-cases.test.ts` expects it not
to throw). -/
theorem claim_C3_null_config_throws :
    (∃ e, createLoggerJS JSConfigArg.nullArg = .error e) ∧
    createLoggerJS JSConfigArg.undef = .ok (createLoggerState {}) ∧
    createLoggerJS (JSConfigArg.conf {}) = .ok (createLoggerState {}) ∧
    (createLoggerState {}).config = mergeConfig {} ∧
    (createLoggerState {}).isDisabled = false ∧
    (createLoggerState {}).currentScope = some (.str "fxlog") ∧
    (createLoggerState {}).timers = [] :=
  ⟨⟨"TypeError: Cannot read properties of null (reading types)", rfl⟩,
   rfl, rfl, rfl, rfl, rfl, rfl⟩

/-! ### Claim C4: unknown log type -/

/-- C4: `buildMessage` fails with an "unknown type" error exactly when the
type name is absent from the merged type mapping; for present names it
yields a formatted line. -/
theorem claim_C4_unknown_type (c : EffConfig) (cs : Option ScopeVal) (env : Env)
    (ty : String) (args : List String) :
    (c.types.lookup ty = none →
      buildMessage c cs env ty args = .error ("Unknown log type: " ++ ty)) ∧
    (∀ tc, c.types.lookup ty = some tc →
      ∃ m lv, buildMessage c cs env ty args = .ok (m, lv)) ∧
    ((∃ e, buildMessage c cs env ty args = .error e) ↔ c.types.lookup ty = none) := by
  refine ⟨?_, ?_, ?_, ?_⟩
  · intro h
    unfold buildMessage
    rw [h]
  · intro tc htc
    unfold buildMessage
    rw [htc]
    exact ⟨_, _, rfl⟩
  · rintro ⟨e, he⟩
    cases h : c.types.lookup ty with
    | none => rfl
    | some tc =>
      unfold buildMessage at he
      rw [h] at he
      cases he
  · intro hn
    refine ⟨"Unknown log type: " ++ ty, ?_⟩
    unfold buildMessage
    rw [hn]

/-- Witness for C4: under the default configuration, `"nope"` errors and
`"log"` formats. -/
theorem claim_C4_unknown_type_witness :
    ((mergeConfig {}).types.lookup "nope" = none ∧
      buildMessage (mergeConfig {}) none envC "nope" [] =
        .error ("Unknown log type: " ++ "nope")) ∧
    ((mergeConfig {}).types.lookup "log" = some ⟨none, none, "log", none⟩ ∧
      ∃ m lv, buildMessage (mergeConfig {}) none envC "log" [] = .ok (m, lv)) :=
  ⟨⟨by decide, (claim_C4_unknown_type (mergeConfig {}) none envC "nope" []).1 (by decide)⟩,
   ⟨by decide, (claim_C4_unknown_type (mergeConfig {}) none envC "log" []).2.1
     ⟨none, none, "log", none⟩ (by decide)⟩⟩

/-! ### Claim C8: date fragment format -/

/-- C8 (code bug): the claim (and the repository's tests) require the date
fragment `[YYYY-MM-DD HH:mm:ss.mmm]`, but `formatDate` joins the unpadded
year, month and day with no time part, and `formatDateTime` appends only
`HH:mm:ss` with no milliseconds.  At local time 2024-01-15 03:02:01.004 the
`date` preset emits `[2024-1-15]` and the `datetime` preset emits
`[2024-1-15 03:02:01]`. -/
theorem claim_C8_date_format_bug :
    formatDate envC.date = "2024-1-15" ∧
    formatDateTime envC.date = "2024-1-15 03:02:01" ∧
    formatDate envC.date ≠ "2024-01-15" ∧
    formatDateTime envC.date ≠ "2024-01-15 03:02:01.004" ∧
    presetFragment envC (mergeConfig { underline := some (some []) }) "date" =
      ["[2024-1-15]"] ∧
    presetFragment envC (mergeConfig { underline := some (some []) }) "datetime" =
      ["[2024-1-15 03:02:01]"] := by
  refine ⟨by decide, by decide, by decide, by decide, by decide, by decide⟩

/-! ### Claim C9: label padding -/

/-- Counterexample to C9 as stated: under the default configuration the
rendered `log` label column is 9 characters wide while the longest
configured label (`success`) is 7 characters long — the code pads to
`longestLabel.length + 2`, not to the longest label's length. -/
theorem claim_C9_counterexample :
    ((mergeConfig {}).types.lookup "log" = some ⟨none, none, "log", none⟩) ∧
    paddedLabel (mergeConfig {}) ⟨none, none, "log", none⟩ = "LOG      " ∧
    (paddedLabel (mergeConfig {}) ⟨none, none, "log", none⟩).length = 9 ∧
    longestLabel (mergeConfig {}).types = "success" ∧
    (longestLabel (mergeConfig {}).types).length = 7 ∧
    (9 : Nat) ≠ 7 := by
  refine ⟨by decide, by decide, by decide, by decide, by decide, by decide⟩

/-- C9 amended: the label column is padded to the longest configured label's
length plus two (the column width is the maximum of that and the
badge-and-label fragment's own length); under the default configuration all
five kinds render to exactly 9 characters. -/
theorem claim_C9_padding (c : EffConfig) (tc : LogTypeConfig) :
    ((paddedLabel c tc).length =
      max (badgeAndLabel c tc).length ((longestLabel c.types).length + 2)) ∧
    (∀ k tc', ((mergeConfig {}).types).lookup k = some tc' →
      (paddedLabel (mergeConfig {}) tc').length = 9) := by
  constructor
  · unfold paddedLabel
    exact length_padEndStr _ _ _
  · intro k tc' h
    have he : (mergeConfig {}).types = defaultTypes := by decide
    rw [he] at h
    have hm : (k, tc') ∈ defaultTypes := mem_of_lookup_eq_some defaultTypes k tc' h
    simp only [defaultTypes, List.mem_cons, List.not_mem_nil, or_false, Prod.mk.injEq] at hm
    rcases hm with ⟨rfl, rfl⟩ | ⟨rfl, rfl⟩ | ⟨rfl, rfl⟩ | ⟨rfl, rfl⟩ | ⟨rfl, rfl⟩ <;> decide

/-- Witness for C9 at the default configuration and the `success` kind. -/
theorem claim_C9_padding_witness :
    ((paddedLabel (mergeConfig {}) ⟨some "✔", some "green", "success", none⟩).length =
      max (badgeAndLabel (mergeConfig {}) ⟨some "✔", some "green", "success", none⟩).length
        ((longestLabel (mergeConfig {}).types).length + 2)) ∧
    ((mergeConfig {}).types.lookup "success" =
      some ⟨some "✔", some "green", "success", none⟩) ∧
    (paddedLabel (mergeConfig {}) ⟨some "✔", some "green", "success", none⟩).length = 9 :=
  ⟨(claim_C9_padding (mergeConfig {}) ⟨some "✔", some "green", "success", none⟩).1,
   by decide,
   (claim_C9_padding (mergeConfig {}) ⟨some "✔", some "green", "success", none⟩).2
     "success" ⟨some "✔", some "green", "success", none⟩ (by decide)⟩

/-! ### Timer unfolding lemmas -/

theorem timeFn_explicit (s : LoggerState) (env : Env) (now : Nat) (l : String)
    (hd : s.isDisabled = false) (hl : l ≠ "") :
    timeFn s env now (some l) =
      (l, [joinSep " " (buildPrefixParts s.config s.currentScope env ++
        ["[TIMER]", chalkColor "green" "▶", chalkColor "green" l, "Initialized timer..."])],
       { s with timers := mapSet s.timers l now }) := by
  unfold timeFn
  rw [if_neg (by simp [hd])]
  simp [hl]

theorem timeEndFn_found (s : LoggerState) (env : Env) (now : Nat) (l : String)
    (hd : s.isDisabled = false) (hl : l ≠ "") (hin : mapHas s.timers l = true) :
    timeEndFn s env now (some l) =
      (some ⟨l, (now : Int) - ((s.timers.lookup l).getD 0 : Int)⟩,
       [joinSep " " (buildPrefixParts s.config s.currentScope env ++
         ["[TIMER]", chalkColor "red" "■", chalkColor "red" l, "Timer run for:",
          chalkColor "yellow" (formatSpan ((now : Int) - ((s.timers.lookup l).getD 0 : Int)))])],
       { s with timers := mapDelete s.timers l }) := by
  unfold timeEndFn
  rw [if_neg (by simp [hd])]
  simp [hl, hin]

theorem timeEndFn_missing (s : LoggerState) (env : Env) (now : Nat) (l : String)
    (hd : s.isDisabled = false) (hl : l ≠ "") (hout : mapHas s.timers l = false) :
    timeEndFn s env now (some l) = (none, [], s) := by
  unfold timeEndFn
  rw [if_neg (by simp [hd])]
  simp [hl, hout]

theorem timeEndFn_none_resolved (s : LoggerState) (env : Env) (now : Nat) (l : String)
    (hd : s.isDisabled = false) (hr : resolveTimerLabel s.timers = some l) :
    timeEndFn s env now none = timeEndFn s env now (some l) := by
  unfold timeEndFn
  rw [if_neg (by simp [hd]), if_neg (by simp [hd])]
  by_cases hl : l = ""
  · subst hl; simp [hr]
  · simp [hr, hl]

theorem timeEndFn_none_noresolve (s : LoggerState) (env : Env) (now : Nat)
    (hd : s.isDisabled = false) (hr : resolveTimerLabel s.timers = none) :
    timeEndFn s env now none = (none, [], s) := by
  unfold timeEndFn
  rw [if_neg (by simp [hd])]
  simp [hr]

theorem resolveTimerLabel_find (timers : List (String × Nat)) (p : String × Nat)
    (h : timers.find? (fun q => strStartsWith q.1 "timer_") = some p) :
    resolveTimerLabel timers = some p.1 := by
  have hne : timers ≠ [] := by
    intro he
    subst he
    simp at h
  unfold resolveTimerLabel
  rw [if_pos (List.length_pos.mpr hne), h]

theorem resolveTimerLabel_last (timers : List (String × Nat)) (q : String × Nat)
    (hne : timers ≠ [])
    (hf : timers.find? (fun r => strStartsWith r.1 "timer_") = none)
    (hq : timers.getLast? = some q) :
    resolveTimerLabel timers = some q.1 := by
  unfold resolveTimerLabel
  rw [if_pos (List.length_pos.mpr hne), hf, hq]
  rfl

/-! ### Claim C5: timeEnd label resolution -/

/-- Counterexample to C5 as stated: with two still-active auto-generated
timers `timer_0` (added first) and `timer_1` (added most recently), an
omitted-label `timeEnd` ends `timer_0` — the code's
`timerKeys.find(k => k.startsWith('timer_'))` takes the EARLIEST-added
auto-generated label, not the most recently-added one the claim requires. -/
theorem claim_C5_counterexample :
    sTwoTimers.timers = [("timer_0", 0), ("timer_1", 5)] ∧
    specResolveLabel sTwoTimers.timers = some "timer_1" ∧
    (timeEndFn sTwoTimers envC 10 none).1 = some ⟨"timer_0", (10 : Int)⟩ ∧
    ("timer_0" : String) ≠ "timer_1" := by
  refine ⟨by decide, by decide, by decide, by decide⟩

/-- C5 amended: an omitted-label `timeEnd` resolves to the EARLIEST-added
still-active label starting with `timer_` if one exists, else the most
recently-added active label; with no active timers, or an explicit label
that is not tracked, it returns nothing and emits no output. -/
theorem claim_C5_amended (s : LoggerState) (env : Env) (now : Nat)
    (hd : s.isDisabled = false) (hkeys : ∀ p ∈ s.timers, p.1 ≠ "") :
    (s.timers = [] → timeEndFn s env now none = (none, [], s)) ∧
    (∀ p, s.timers.find? (fun q => strStartsWith q.1 "timer_") = some p →
      (timeEndFn s env now none).1 =
        some ⟨p.1, (now : Int) - ((s.timers.lookup p.1).getD 0 : Int)⟩) ∧
    (s.timers ≠ [] → s.timers.find? (fun q => strStartsWith q.1 "timer_") = none →
      ∀ q, s.timers.getLast? = some q →
      (timeEndFn s env now none).1 =
        some ⟨q.1, (now : Int) - ((s.timers.lookup q.1).getD 0 : Int)⟩) ∧
    (∀ l, l ≠ "" → mapHas s.timers l = false →
      timeEndFn s env now (some l) = (none, [], s)) := by
  refine ⟨?_, ?_, ?_, ?_⟩
  · intro he
    refine timeEndFn_none_noresolve s env now hd ?_
    rw [he]
    rfl
  · intro p hp
    have hmem : p ∈ s.timers := List.mem_of_find?_eq_some hp
    have hin : mapHas s.timers p.1 = true := lookup_isSome_of_mem s.timers p hmem
    rw [timeEndFn_none_resolved s env now p.1 hd (resolveTimerLabel_find s.timers p hp),
      timeEndFn_found s env now p.1 hd (hkeys p hmem) hin]
  · intro hne hf q hq
    have hmem : q ∈ s.timers := List.mem_of_mem_getLast? hq
    have hin : mapHas s.timers q.1 = true := lookup_isSome_of_mem s.timers q hmem
    rw [timeEndFn_none_resolved s env now q.1 hd
        (resolveTimerLabel_last s.timers q hne hf hq),
      timeEndFn_found s env now q.1 hd (hkeys q hmem) hin]
  · intro l hl hout
    exact timeEndFn_missing s env now l hd hl hout

/-- Witness for C5 amended at a state with a user timer and no auto
timers. -/
theorem claim_C5_amended_witness :
    ((createLoggerState {}).isDisabled = false ∧
      (∀ p ∈ (createLoggerState {}).timers, p.1 ≠ "")) ∧
    ((createLoggerState {}).timers = [] →
      timeEndFn (createLoggerState {}) envC 3 none = (none, [], createLoggerState {})) :=
  ⟨⟨by decide, by decide⟩,
   (claim_C5_amended (createLoggerState {}) envC 3 (by decide) (by decide)).1⟩

/-! ### Claim C6: timeEnd called twice -/

/-- C6: on a tracked label, the first `timeEnd` returns `{label, span}`,
writes one line and removes the label; the second call returns `undefined`,
writes nothing and leaves the state unchanged. -/
theorem claim_C6_timeEnd_twice (s : LoggerState) (env : Env) (l : String) (t1 t2 : Nat)
    (hd : s.isDisabled = false) (hl : l ≠ "") (hin : mapHas s.timers l = true) :
    (timeEndFn s env t1 (some l)).1 =
      some ⟨l, (t1 : Int) - ((s.timers.lookup l).getD 0 : Int)⟩ ∧
    (∃ line, (timeEndFn s env t1 (some l)).2.1 = [line]) ∧
    mapHas ((timeEndFn s env t1 (some l)).2.2).timers l = false ∧
    timeEndFn ((timeEndFn s env t1 (some l)).2.2) env t2 (some l) =
      (none, [], (timeEndFn s env t1 (some l)).2.2) := by
  rw [timeEndFn_found s env t1 l hd hl hin]
  have hdel : mapHas (mapDelete s.timers l) l = false := by
    unfold mapHas
    rw [lookup_mapDelete_self]
    rfl
  refine ⟨rfl, ⟨_, rfl⟩, hdel, ?_⟩
  exact timeEndFn_missing _ env t2 l hd hl hdel

/-- Witness for C6: `time('x')` then `timeEnd('x')` twice under the default
configuration. -/
theorem claim_C6_timeEnd_twice_witness :
    (((timeFn (createLoggerState {}) envC 2 (some "x")).2.2).isDisabled = false ∧
      ("x" : String) ≠ "" ∧
      mapHas ((timeFn (createLoggerState {}) envC 2 (some "x")).2.2).timers "x" = true) ∧
    (timeEndFn ((timeFn (createLoggerState {}) envC 2 (some "x")).2.2) envC 7 (some "x")).1 =
      some ⟨"x", (5 : Int)⟩ :=
  ⟨⟨by decide, by decide, by decide⟩, by
    have h := (claim_C6_timeEnd_twice ((timeFn (createLoggerState {}) envC 2 (some "x")).2.2)
      envC "x" 7 9 (by decide) (by decide) (by decide)).1
    rw [h]
    decide⟩

/-! ### Claim C10: disable/enable frame -/

/-- C10: `disable()`/`enable()` mutate only the disabled flag — the timer
map, configuration and scope are untouched — so a timer started before
`disable()` still ends after `enable()` with a span covering the whole
interval since its original start. -/
theorem claim_C10_disable_enable_frame (s : LoggerState) (env : Env) (t0 t1 : Nat)
    (l : String) (hd : s.isDisabled = false) (hl : l ≠ "") :
    (disableFn s).timers = s.timers ∧
    (disableFn s).config = s.config ∧
    (disableFn s).currentScope = s.currentScope ∧
    (disableFn s).isDisabled = true ∧
    (enableFn s).timers = s.timers ∧
    (enableFn s).config = s.config ∧
    (enableFn s).currentScope = s.currentScope ∧
    (enableFn s).isDisabled = false ∧
    (timeEndFn (enableFn (disableFn ((timeFn s env t0 (some l)).2.2))) env t1 (some l)).1 =
      some ⟨l, (t1 : Int) - (t0 : Int)⟩ := by
  refine ⟨rfl, rfl, rfl, rfl, rfl, rfl, rfl, rfl, ?_⟩
  have hstep : (timeFn s env t0 (some l)).2.2 = { s with timers := mapSet s.timers l t0 } := by
    rw [timeFn_explicit s env t0 l hd hl]
  have h2 : enableFn (disableFn ((timeFn s env t0 (some l)).2.2)) =
      { s with timers := mapSet s.timers l t0, isDisabled := false } := by
    rw [hstep]
    rfl
  have hlk : ((mapSet s.timers l t0).lookup l) = some t0 := lookup_mapSet_self s.timers l t0
  have hin : mapHas ({ s with timers := mapSet s.timers l t0, isDisabled := false }
      : LoggerState).timers l = true := by
    show mapHas (mapSet s.timers l t0) l = true
    unfold mapHas
    rw [hlk]
    rfl
  rw [h2, timeEndFn_found _ env t1 l rfl hl hin]
  show some (TimerResult.mk l ((t1 : Int) - (((mapSet s.timers l t0).lookup l).getD 0 : Int))) =
    some (TimerResult.mk l ((t1 : Int) - (t0 : Int)))
  rw [hlk]
  rfl

/-- Witness for C10: start at 2ms, disable, enable, end at 7ms — span 5ms. -/
theorem claim_C10_disable_enable_frame_witness :
    ((createLoggerState {}).isDisabled = false ∧ ("x" : String) ≠ "") ∧
    (timeEndFn (enableFn (disableFn
      ((timeFn (createLoggerState {}) envC 2 (some "x")).2.2))) envC 7 (some "x")).1 =
      some ⟨"x", (5 : Int)⟩ :=
  ⟨⟨by decide, by decide⟩, by
    have h := (claim_C10_disable_enable_frame (createLoggerState {}) envC 2 7 "x"
      (by decide) (by decide)).2.2.2.2.2.2.2.2
    rw [h]
    decide⟩

/-! ### Claim C1: disabled loggers are silent -/

theorem runOps_disabled (env : Env) :
    ∀ (ops : List LogOp) (s : LoggerState), s.isDisabled = true → LogOp.enableO ∉ ops →
    (runOps env s ops).2 = [] ∧ ((runOps env s ops).1).isDisabled = true := by
  intro ops
  induction ops with
  | nil => intro s hd _; exact ⟨rfl, hd⟩
  | cons op rest ih =>
    intro s hd hen
    have hop : op ≠ LogOp.enableO := fun he => hen (he ▸ List.mem_cons_self _ _)
    have hrest : LogOp.enableO ∉ rest := fun hm => hen (List.mem_cons_of_mem _ hm)
    have hstep : (stepO env s op).1.isDisabled = true ∧ (stepO env s op).2 = [] := by
      cases op with
      | logO ty args => simp [stepO, logFn, hd]
      | timeO now l => simp [stepO, timeFn, hd]
      | timeEndO now l => simp [stepO, timeEndFn, hd]
      | disableO => exact ⟨rfl, rfl⟩
      | enableO => exact absurd rfl hop
    obtain ⟨ih1, ih2⟩ := ih (stepO env s op).1 hstep.1 hrest
    constructor
    · show (stepO env s op).2 ++ (runOps env (stepO env s op).1 rest).2 = []
      rw [hstep.2, ih1]
      rfl
    · show ((runOps env (stepO env s op).1 rest).1).isDisabled = true
      exact ih2

/-- C1: while a logger's disabled flag is set, every log-level function,
`time` and `timeEnd` is a no-op producing no console output, and any call
sequence containing no `enable()` produces no console output at all and
leaves the logger disabled. -/
theorem claim_C1_disabled_silent (env : Env) (s : LoggerState) (ops : List LogOp)
    (hd : s.isDisabled = true) (hen : LogOp.enableO ∉ ops) :
    (∀ ty args, logFn s env ty args = ([], s)) ∧
    (∀ now l, timeFn s env now l = ("", [], s)) ∧
    (∀ now l, timeEndFn s env now l = (none, [], s)) ∧
    (runOps env s ops).2 = [] ∧
    ((runOps env s ops).1).isDisabled = true := by
  refine ⟨?_, ?_, ?_, ?_, ?_⟩
  · intro ty args
    unfold logFn
    rw [if_pos hd]
  · intro now l
    unfold timeFn
    rw [if_pos hd]
  · intro now l
    unfold timeEndFn
    rw [if_pos hd]
  · exact (runOps_disabled env ops s hd hen).1
  · exact (runOps_disabled env ops s hd hen).2

/-- Witness for C1: a logger created with `disabled: true` and a sample
call sequence with no `enable()`. -/
theorem claim_C1_disabled_silent_witness :
    (sDisabled.isDisabled = true ∧ LogOp.enableO ∉ opsSample) ∧
    (runOps envC sDisabled opsSample).2 = [] ∧
    ((runOps envC sDisabled opsSample).1).isDisabled = true :=
  ⟨⟨by decide, by decide⟩,
   (claim_C1_disabled_silent envC sDisabled opsSample (by decide) (by decide)).2.2.2.1,
   (claim_C1_disabled_silent envC sDisabled opsSample (by decide) (by decide)).2.2.2.2⟩

/-! ### Claim C7: scope chaining and unscope -/

theorem append_ne_empty_right (x t : String) (ht : t.length ≠ 0) : x ++ t ≠ "" := by
  intro h
  have hlen := congrArg String.length h
  rw [String.length_append] at hlen
  have h0 : ("" : String).length = 0 := rfl
  rw [h0] at hlen
  omega

theorem containsStr_scope_styled (c : EffConfig) (s t : String) (hne : s ≠ "")
    (h : containsStr s t) :
    containsStr (if shouldApplyStyle "scope" c then chalkUnderline s else s) t := by
  by_cases hs : shouldApplyStyle "scope" c = true
  · rw [if_pos hs]
    unfold chalkUnderline
    rw [if_neg hne]
    exact containsStr_append_right _ _ _ (containsStr_append_left _ _ _ h)
  · rw [if_neg hs]
    exact h

theorem scopeParts_arr (c : EffConfig) (l : List String) :
    scopeParts c (some (.arr l)) =
      [if shouldApplyStyle "scope" c then
         chalkUnderline (joinSep " " (l.map (scopeFragmentStr c)))
       else joinSep " " (l.map (scopeFragmentStr c))] := rfl

theorem scopeStr_contains (c : EffConfig) (l0 : List String)
    (hup : shouldUppercase "scope" c = false) :
    ∃ x, joinSep " " ((l0 ++ ["a", "b"]).map (scopeFragmentStr c)) = x ++ "[a] [b]" := by
  have hfa : scopeFragmentStr c "a" = "[a]" := by
    unfold scopeFragmentStr
    rw [hup]
    rfl
  have hfb : scopeFragmentStr c "b" = "[b]" := by
    unfold scopeFragmentStr
    rw [hup]
    rfl
  rw [List.map_append]
  rw [show (["a", "b"] : List String).map (scopeFragmentStr c) =
    [scopeFragmentStr c "a", scopeFragmentStr c "b"] from rfl, hfa, hfb]
  obtain ⟨x, hx⟩ := joinSep_append_last_two " " (l0.map (scopeFragmentStr c)) "[a]" "[b]"
  exact ⟨x, by rw [hx]; rfl⟩

theorem scopePart_contains (c : EffConfig) (l0 : List String)
    (hup : shouldUppercase "scope" c = false) :
    ∃ sp, scopeParts c (some (.arr (l0 ++ ["a", "b"]))) = [sp] ∧
      containsStr sp "[a] [b]" := by
  obtain ⟨x, hx⟩ := scopeStr_contains c l0 hup
  have hne : joinSep " " ((l0 ++ ["a", "b"]).map (scopeFragmentStr c)) ≠ "" := by
    rw [hx]
    exact append_ne_empty_right x "[a] [b]" (by decide)
  have hcont : containsStr (joinSep " " ((l0 ++ ["a", "b"]).map (scopeFragmentStr c)))
      "[a] [b]" := by
    refine ⟨x, "", ?_⟩
    rw [hx, String.append_empty]
  exact ⟨_, scopeParts_arr c _, containsStr_scope_styled c _ _ hne hcont⟩

theorem joinSep_three (a b c : String) :
    joinSep " " [a, b, c] = a ++ " " ++ (b ++ " " ++ c) := rfl

/-- Counterexample to C7 as stated: "for every logger" fails, because a
configuration with `uppercase: ['scope']` renders the fragments as `[A]`
and `[B]`; the output contains no `[a]` fragment at all (there is no
lowercase `a` anywhere in the line).  A disabled logger likewise emits no
line at all, so no `[a]` fragment either. -/
theorem claim_C7_counterexample :
    shouldUppercase "scope" sUpper.config = true ∧
    (logFn sUpper envC "log" ["x"]).1 = ["[A] [B] log       x"] ∧
    (logFn (scopeFn (scopeFn sDisabled ["a"]) ["b"]) envC "log" ["x"]).1 = [] ∧
    ¬ containsStr "[A] [B] log       x" "[a]" := by
  refine ⟨by decide, by decide, by decide, ?_⟩
  rintro ⟨x, y, hxy⟩
  have hmem : 'a' ∈ ("[A] [B] log       x" : String).data := by
    rw [hxy, String.data_append, String.data_append]
    exact List.mem_append_left _ (List.mem_append_right _ (by decide))
  exact absurd hmem (by decide)

/-- C7 amended: for every enabled logger whose configuration does not
uppercase scopes, `scope('a').scope('b')` followed by a log call writes one
line containing the fragments `[a] [b]` in that order (appended after any
scopes the logger already had); and `unscope()` clears the current scope,
after which the prefix builder emits no scope fragment at all. -/
theorem claim_C7_amended (s : LoggerState) (env : Env) (args : List String)
    (hd : s.isDisabled = false)
    (hup : shouldUppercase "scope" (scopeFn (scopeFn s ["a"]) ["b"]).config = false) :
    (∃ m, (logFn (scopeFn (scopeFn s ["a"]) ["b"]) env "log" args).1 = [m] ∧
      containsStr m "[a] [b]") ∧
    (unscopeFn s).currentScope = none ∧
    (∀ c env2, buildPrefixParts c none env2 = userPrefixParts c ++ presetParts env2 c) := by
  refine ⟨?_, rfl, ?_⟩
  · -- the scoped log line
    have hdis : (scopeFn (scopeFn s ["a"]) ["b"]).isDisabled = false := hd
    obtain ⟨tc, htc⟩ :
        ∃ tc, (((scopeFn (scopeFn s ["a"]) ["b"]).config).types).lookup "log" = some tc := by
      rw [show ((scopeFn (scopeFn s ["a"]) ["b"]).config).types
          = objAssign defaultTypes ((scopeFn s ["a"]).config).types from rfl, lookup_objAssign]
      cases h1 : (((scopeFn s ["a"]).config).types).lookup "log" with
      | some tc0 => exact ⟨tc0, rfl⟩
      | none => exact ⟨⟨none, none, "log", none⟩, rfl⟩
    obtain ⟨l0, hcs⟩ :
        ∃ l0, (scopeFn (scopeFn s ["a"]) ["b"]).currentScope =
          some (.arr (l0 ++ ["a", "b"])) := by
      have h1 : (scopeFn (scopeFn s ["a"]) ["b"]).currentScope =
          some (.arr ((nextScopes s.currentScope ["a"]) ++ ["b"])) := rfl
      cases hsc : s.currentScope with
      | none => exact ⟨[], by rw [h1, hsc]; rfl⟩
      | some sv =>
        cases sv with
        | str t => exact ⟨[], by rw [h1, hsc]; rfl⟩
        | arr l =>
          refine ⟨l, ?_⟩
          rw [h1, hsc]
          simp [nextScopes, List.append_assoc]
    have hmsg : (logFn (scopeFn (scopeFn s ["a"]) ["b"]) env "log" args).1 =
        [joinSep " "
          ((if (buildPrefixParts (scopeFn (scopeFn s ["a"]) ["b"]).config
              (scopeFn (scopeFn s ["a"]) ["b"]).currentScope env).length > 0
            then [joinSep " " (buildPrefixParts (scopeFn (scopeFn s ["a"]) ["b"]).config
              (scopeFn (scopeFn s ["a"]) ["b"]).currentScope env)] else []) ++
           [renderedLabel (scopeFn (scopeFn s ["a"]) ["b"]).config tc] ++
           [if shouldApplyStyle "message" (scopeFn (scopeFn s ["a"]) ["b"]).config
            then chalkUnderline (joinSep " " args) else joinSep " " args])] := by
      unfold logFn
      rw [if_neg (by simp [hdis])]
      unfold buildMessage
      rw [htc]
    obtain ⟨sp, hspl, hspc⟩ :=
      scopePart_contains (scopeFn (scopeFn s ["a"]) ["b"]).config l0 hup
    have hppl : buildPrefixParts (scopeFn (scopeFn s ["a"]) ["b"]).config
        (scopeFn (scopeFn s ["a"]) ["b"]).currentScope env =
        (userPrefixParts (scopeFn (scopeFn s ["a"]) ["b"]).config ++
          presetParts env (scopeFn (scopeFn s ["a"]) ["b"]).config) ++ [sp] := by
      rw [show buildPrefixParts (scopeFn (scopeFn s ["a"]) ["b"]).config
          (scopeFn (scopeFn s ["a"]) ["b"]).currentScope env =
        (userPrefixParts (scopeFn (scopeFn s ["a"]) ["b"]).config ++
          presetParts env (scopeFn (scopeFn s ["a"]) ["b"]).config) ++
          scopeParts (scopeFn (scopeFn s ["a"]) ["b"]).config
            (scopeFn (scopeFn s ["a"]) ["b"]).currentScope from rfl]
      rw [hcs, hspl]
    have hlen : (buildPrefixParts (scopeFn (scopeFn s ["a"]) ["b"]).config
        (scopeFn (scopeFn s ["a"]) ["b"]).currentScope env).length > 0 := by
      rw [hppl]
      simp
    refine ⟨_, hmsg, ?_⟩
    rw [if_pos hlen]
    rw [show ([joinSep " " (buildPrefixParts (scopeFn (scopeFn s ["a"]) ["b"]).config
          (scopeFn (scopeFn s ["a"]) ["b"]).currentScope env)] ++
        [renderedLabel (scopeFn (scopeFn s ["a"]) ["b"]).config tc] ++
        [if shouldApplyStyle "message" (scopeFn (scopeFn s ["a"]) ["b"]).config
         then chalkUnderline (joinSep " " args) else joinSep " " args]) =
      [joinSep " " (buildPrefixParts (scopeFn (scopeFn s ["a"]) ["b"]).config
          (scopeFn (scopeFn s ["a"]) ["b"]).currentScope env),
       renderedLabel (scopeFn (scopeFn s ["a"]) ["b"]).config tc,
       if shouldApplyStyle "message" (scopeFn (scopeFn s ["a"]) ["b"]).config
       then chalkUnderline (joinSep " " args) else joinSep " " args] from rfl]
    rw [joinSep_three]
    have hPP : containsStr (joinSep " " (buildPrefixParts
        (scopeFn (scopeFn s ["a"]) ["b"]).config
        (scopeFn (scopeFn s ["a"]) ["b"]).currentScope env)) "[a] [b]" := by
      rw [hppl]
      obtain ⟨x1, hx1⟩ := joinSep_append_last " "
        (userPrefixParts (scopeFn (scopeFn s ["a"]) ["b"]).config ++
          presetParts env (scopeFn (scopeFn s ["a"]) ["b"]).config) sp
      rw [hx1]
      exact containsStr_append_left _ _ _ hspc
    exact containsStr_append_right _ _ _ (containsStr_append_right _ _ _ hPP)
  · -- unscoped prefixes carry no scope fragment
    intro c env2
    rw [show buildPrefixParts c none env2 =
      (userPrefixParts c ++ presetParts env2 c) ++ scopeParts c none from rfl]
    rw [show scopeParts c none = [] from rfl, List.append_nil]

/-- Witness for C7 amended at the default configuration. -/
theorem claim_C7_amended_witness :
    ((createLoggerState {}).isDisabled = false ∧
      shouldUppercase "scope"
        (scopeFn (scopeFn (createLoggerState {}) ["a"]) ["b"]).config = false) ∧
    (∃ m, (logFn (scopeFn (scopeFn (createLoggerState {}) ["a"]) ["b"]) envC
        "log" ["hi"]).1 = [m] ∧ containsStr m "[a] [b]") :=
  ⟨⟨by decide, by decide⟩,
   (claim_C7_amended (createLoggerState {}) envC ["hi"] (by decide) (by decide)).1⟩

end Fxlog
